import Mathlib

/-!
Verification of the RBAC engine and admin authority guards of the wiki/CMS
backend. Definitions are shallow embeddings of the Python admin/form code
(web/admin.py, web/forms.py); where a component is referenced but its code is
not among the sources (the resolution engine and the permissions form fields),
the definition is modelled from the design document and marked as such.
-/

namespace RBAC

/-- Capability codename (a Django `Permission.codename` in the dedicated role
capability namespace). -/
abbrev Cap := String

abbrev RoleId := Nat

abbrev CatId := Nat

/-- Embeds the `Role` model: slug, sortable `index` (the rank: lower value =
higher privilege), staff flag, global allow set (`permissions`) and global deny
set (`restrictions`), both as capability codenames. -/
structure Role where
  id : RoleId
  slug : String
  name : String
  index : Nat
  is_staff : Bool
  permissions : List Cap
  restrictions : List Cap
deriving DecidableEq

/-- Embeds the `RolePermissionsOverride` model: a per-role substitute
allow/deny pair, owned by one category. -/
structure RolePermissionsOverride where
  role_id : RoleId
  permissions : List Cap
  restrictions : List Cap
deriving DecidableEq

/-- A principal: its explicitly assigned roles and its authentication state. -/
structure Principal where
  roles : List Role
  is_authenticated : Bool

/-- Modelled from the spec: the resolution engine (section 4.1) is not present
among the provided sources, only its admin-side mutators are. Step 1 of the
algorithm: the effective role set is the explicit assignments, plus the
`everyone` role, plus the `registered` role when authenticated. -/
def effectiveRoles (store : List Role) (p : Principal) : List Role :=
  p.roles ++ store.filter (fun r => r.slug == "everyone") ++
    (if p.is_authenticated then store.filter (fun r => r.slug == "registered") else [])

/-- Lookup of the override row for a (category, role) pair in the override
store. -/
def findOverride (ovs : List (CatId × RolePermissionsOverride)) (cat : CatId)
    (rid : RoleId) : Option RolePermissionsOverride :=
  ((ovs.filter (fun q => q.1 == cat && q.2.role_id == rid)).head?).map Prod.snd

/-- Modelled from the spec: step 2 of the resolution algorithm, allow half.
When a scope category is given and an override row exists for (role, category),
the override wholly replaces the global set; otherwise the global set is used. -/
def effectiveAllowed (ovs : List (CatId × RolePermissionsOverride))
    (scope : Option CatId) (r : Role) : List Cap :=
  match scope with
  | none => r.permissions
  | some cat =>
    match findOverride ovs cat r.id with
    | some ov => ov.permissions
    | none => r.permissions

/-- Modelled from the spec: step 2 of the resolution algorithm, deny half. -/
def effectiveDenied (ovs : List (CatId × RolePermissionsOverride))
    (scope : Option CatId) (r : Role) : List Cap :=
  match scope with
  | none => r.restrictions
  | some cat =>
    match findOverride ovs cat r.id with
    | some ov => ov.restrictions
    | none => r.restrictions

/-- Modelled from the spec: step 3 of the resolution algorithm,
deny-overrides-allow with fail-closed default. -/
def hasPermission (store : List Role) (ovs : List (CatId × RolePermissionsOverride))
    (p : Principal) (cap : Cap) (scope : Option CatId) : Bool :=
  let eff := effectiveRoles store p
  if eff.any (fun r => (effectiveDenied ovs scope r).contains cap) then false
  else eff.any (fun r => (effectiveAllowed ovs scope r).contains cap)

/-- C1: for every principal, capability and optional scope category,
`hasPermission` is true exactly when no role of the effective role set denies
the capability and some role of the effective role set allows it; hence any
deny forces false, and with no deny and no allow the default is false. -/
theorem hasPermission_characterization (store : List Role)
    (ovs : List (CatId × RolePermissionsOverride)) (p : Principal) (cap : Cap)
    (scope : Option CatId) :
    hasPermission store ovs p cap scope = true ↔
      ((∀ r ∈ effectiveRoles store p, cap ∉ effectiveDenied ovs scope r) ∧
       (∃ r ∈ effectiveRoles store p, cap ∈ effectiveAllowed ovs scope r)) := by
  unfold hasPermission
  by_cases h : (effectiveRoles store p).any
      (fun r => (effectiveDenied ovs scope r).contains cap) = true
  · rw [if_pos h]
    simp only [List.any_eq_true] at h
    obtain ⟨r, hr, hc⟩ := h
    rw [List.elem_iff] at hc
    constructor
    · intro hfalse
      exact absurd hfalse (by simp)
    · rintro ⟨hno, -⟩
      exact absurd hc (hno r hr)
  · rw [if_neg h]
    simp only [List.any_eq_true, List.elem_iff] at h ⊢
    push_neg at h
    constructor
    · intro hall
      exact ⟨h, hall⟩
    · rintro ⟨-, hall⟩
      exact hall

/-- The acting admin user as the guard code reads it: superuser flag, derived
`operation_index` (minimum rank among effective roles, sentinel when none), the
`roles.manage_roles` capability, and the outcomes of the framework-level
(`super()`) model permission checks that the overridden methods fall back to. -/
structure Actor where
  is_superuser : Bool
  operation_index : Nat
  has_manage_roles : Bool
  base_change_permission : Bool
  base_delete_permission : Bool

/-- Embeds `RoleAdmin.has_change_permission` (web/admin.py): returns false when
the object is present, the actor is not a superuser, and the role index is
strictly below the actor operation index; otherwise falls back to the
framework check. -/
def RoleAdmin_has_change_permission (actor : Actor) (obj : Option Role) : Bool :=
  match obj with
  | some role =>
    if !actor.is_superuser && decide (role.index < actor.operation_index) then false
    else actor.base_change_permission
  | none => actor.base_change_permission

/-- The target of a user edit, as the guard reads it: its derived operation
index. -/
structure TargetUser where
  operation_index : Nat

/-- Embeds `AdvancedUserAdmin.has_change_permission` (web/admin.py): returns
false when the object is present, the actor is not a superuser, and the target
operation index is less than or equal to the actor operation index; otherwise
falls back to the framework check. -/
def AdvancedUserAdmin_has_change_permission (actor : Actor) (obj : Option TargetUser) : Bool :=
  match obj with
  | some u =>
    if !actor.is_superuser && decide (u.operation_index ≤ actor.operation_index) then false
    else actor.base_change_permission
  | none => actor.base_change_permission

/-- C2 counterexample: a non-superuser actor whose operation index equals the
role index is allowed to edit the role, contradicting the claim that equality
is disallowed. -/
theorem RoleAdmin_change_equal_rank_allowed :
    let actor : Actor :=
      { is_superuser := false, operation_index := 2, has_manage_roles := true,
        base_change_permission := true, base_delete_permission := true }
    let role : Role :=
      { id := 7, slug := "moderator", name := "Moderator", index := 2,
        is_staff := true, permissions := [], restrictions := [] }
    RoleAdmin_has_change_permission actor (some role) = true ∧
      ¬(actor.is_superuser = true ∨ actor.operation_index < role.index) := by
  decide

/-- C2 (amended): for an actor that passes the framework model check, editing a
role is allowed exactly when the actor is a superuser or the actor operation
index is less than OR EQUAL to the role index; equality is allowed by the
code. -/
theorem RoleAdmin_change_permission_iff (actor : Actor) (role : Role)
    (hbase : actor.base_change_permission = true) :
    RoleAdmin_has_change_permission actor (some role) = true ↔
      (actor.is_superuser = true ∨ actor.operation_index ≤ role.index) := by
  unfold RoleAdmin_has_change_permission
  cases hs : actor.is_superuser with
  | true => simp [hs, hbase]
  | false =>
    simp only [hs, Bool.not_false, Bool.true_and, hbase, false_or]
    by_cases hlt : role.index < actor.operation_index
    · simp [hlt]
    · simp [hlt]
      omega

/-- C2 witness: the amended equivalence evaluated at a concrete non-superuser
actor and role. -/
theorem RoleAdmin_change_permission_iff_witness :
    (RoleAdmin_has_change_permission
        { is_superuser := false, operation_index := 1, has_manage_roles := true,
          base_change_permission := true, base_delete_permission := true }
        (some { id := 7, slug := "moderator", name := "Moderator", index := 2,
                is_staff := true, permissions := [], restrictions := [] }) = true ↔
      (({ is_superuser := false, operation_index := 1, has_manage_roles := true,
          base_change_permission := true, base_delete_permission := true } : Actor).is_superuser = true ∨
        (1 : Nat) ≤ 2)) := by
  exact RoleAdmin_change_permission_iff
    { is_superuser := false, operation_index := 1, has_manage_roles := true,
      base_change_permission := true, base_delete_permission := true }
    { id := 7, slug := "moderator", name := "Moderator", index := 2,
      is_staff := true, permissions := [], restrictions := [] }
    (by decide)

/-- C4: for an actor that passes the framework model check, editing a user is
allowed exactly when the actor is a superuser or the actor operation index is
strictly less than the target operation index; equal indices are refused for a
non-superuser. -/
theorem AdvancedUserAdmin_change_permission_iff (actor : Actor) (target : TargetUser)
    (hbase : actor.base_change_permission = true) :
    AdvancedUserAdmin_has_change_permission actor (some target) = true ↔
      (actor.is_superuser = true ∨ actor.operation_index < target.operation_index) := by
  unfold AdvancedUserAdmin_has_change_permission
  cases hs : actor.is_superuser with
  | true => simp [hs, hbase]
  | false =>
    simp only [hs, Bool.not_false, Bool.true_and, hbase, false_or]
    by_cases hle : target.operation_index ≤ actor.operation_index
    · simp [hle]
    · simp [hle]
      omega

/-- C4 witness: the equivalence evaluated at a concrete non-superuser actor and
a target of equal operation index, where editing is refused. -/
theorem AdvancedUserAdmin_change_permission_iff_witness :
    (AdvancedUserAdmin_has_change_permission
        { is_superuser := false, operation_index := 2, has_manage_roles := true,
          base_change_permission := true, base_delete_permission := true }
        (some { operation_index := 2 }) = true ↔
      (({ is_superuser := false, operation_index := 2, has_manage_roles := true,
          base_change_permission := true, base_delete_permission := true } : Actor).is_superuser = true ∨
        (2 : Nat) < 2)) := by
  exact AdvancedUserAdmin_change_permission_iff
    { is_superuser := false, operation_index := 2, has_manage_roles := true,
      base_change_permission := true, base_delete_permission := true }
    { operation_index := 2 }
    (by decide)

/-- The editable fields of a user record as the admin save path sees them:
the two guarded fields (`is_superuser`, `roles`) plus representative ordinary
form fields that the save commits unconditionally. -/
structure UserRecord where
  username : String
  bio : String
  is_active : Bool
  is_superuser : Bool
  roles : List RoleId
deriving DecidableEq

/-- Embeds `AdvancedUserAdmin.save_model` (web/admin.py) for an edit of an
existing record (`obj.pk` set and `change` true): before persisting, a
non-superuser actor has the submitted `is_superuser` replaced by the stored
value, and an actor without `roles.manage_roles` has the submitted role set
replaced by the stored set; everything else of the submitted record is
persisted. For a creation (`change` false) the submitted record is persisted
as is. -/
def AdvancedUserAdmin_save_model (actor : Actor) (stored submitted : UserRecord)
    (change : Bool) : UserRecord :=
  if change then
    { submitted with
      is_superuser := if actor.is_superuser then submitted.is_superuser else stored.is_superuser,
      roles := if actor.has_manage_roles then submitted.roles else stored.roles }
  else submitted

/-- C5: on an edit that passed the record-level guard, a non-superuser actor
has the submitted superuser flag reverted to the stored value, an actor
without the manage_roles capability has the submitted role set reverted to the
stored set, and all other submitted fields are still committed. -/
theorem AdvancedUserAdmin_save_model_reverts (actor : Actor)
    (stored submitted : UserRecord)
    (hsup : actor.is_superuser = false)
    (hmr : actor.has_manage_roles = false) :
    (AdvancedUserAdmin_save_model actor stored submitted true).is_superuser =
        stored.is_superuser ∧
      (AdvancedUserAdmin_save_model actor stored submitted true).roles = stored.roles ∧
      (AdvancedUserAdmin_save_model actor stored submitted true).username =
        submitted.username ∧
      (AdvancedUserAdmin_save_model actor stored submitted true).bio = submitted.bio ∧
      (AdvancedUserAdmin_save_model actor stored submitted true).is_active =
        submitted.is_active := by
  simp [AdvancedUserAdmin_save_model, hsup, hmr]

/-- C5 witness: the revert behaviour evaluated at a concrete non-superuser,
non-role-managing actor, concrete stored record, and a submitted record that
attempts to flip both guarded fields. -/
theorem AdvancedUserAdmin_save_model_reverts_witness :
    (AdvancedUserAdmin_save_model
        { is_superuser := false, operation_index := 1, has_manage_roles := false,
          base_change_permission := true, base_delete_permission := true }
        { username := "alice", bio := "old bio", is_active := false,
          is_superuser := false, roles := [3] }
        { username := "alice2", bio := "new bio", is_active := true,
          is_superuser := true, roles := [3, 4] }
        true).is_superuser = false ∧
      (AdvancedUserAdmin_save_model
        { is_superuser := false, operation_index := 1, has_manage_roles := false,
          base_change_permission := true, base_delete_permission := true }
        { username := "alice", bio := "old bio", is_active := false,
          is_superuser := false, roles := [3] }
        { username := "alice2", bio := "new bio", is_active := true,
          is_superuser := true, roles := [3, 4] }
        true).roles = [3] ∧
      (AdvancedUserAdmin_save_model
        { is_superuser := false, operation_index := 1, has_manage_roles := false,
          base_change_permission := true, base_delete_permission := true }
        { username := "alice", bio := "old bio", is_active := false,
          is_superuser := false, roles := [3] }
        { username := "alice2", bio := "new bio", is_active := true,
          is_superuser := true, roles := [3, 4] }
        true).username = "alice2" ∧
      (AdvancedUserAdmin_save_model
        { is_superuser := false, operation_index := 1, has_manage_roles := false,
          base_change_permission := true, base_delete_permission := true }
        { username := "alice", bio := "old bio", is_active := false,
          is_superuser := false, roles := [3] }
        { username := "alice2", bio := "new bio", is_active := true,
          is_superuser := true, roles := [3, 4] }
        true).bio = "new bio" ∧
      (AdvancedUserAdmin_save_model
        { is_superuser := false, operation_index := 1, has_manage_roles := false,
          base_change_permission := true, base_delete_permission := true }
        { username := "alice", bio := "old bio", is_active := false,
          is_superuser := false, roles := [3] }
        { username := "alice2", bio := "new bio", is_active := true,
          is_superuser := true, roles := [3, 4] }
        true).is_active = true := by
  exact AdvancedUserAdmin_save_model_reverts
    { is_superuser := false, operation_index := 1, has_manage_roles := false,
      base_change_permission := true, base_delete_permission := true }
    { username := "alice", bio := "old bio", is_active := false,
      is_superuser := false, roles := [3] }
    { username := "alice2", bio := "new bio", is_active := true,
      is_superuser := true, roles := [3, 4] }
    (by decide) (by decide)

/-- Embeds `RoleAdmin.has_delete_permission` (web/admin.py): refuses deletion
of the roles with slug `everyone` or `registered` before any actor check;
otherwise falls back to the framework check. -/
def RoleAdmin_has_delete_permission (actor : Actor) (obj : Option Role) : Bool :=
  match obj with
  | some role =>
    if role.slug == "everyone" || role.slug == "registered" then false
    else actor.base_delete_permission
  | none => actor.base_delete_permission

/-- Embeds `RoleAdmin.get_readonly_fields` (web/admin.py): for the roles with
slug `everyone` or `registered` the slug field is appended to the read-only
field list, for every actor. `RoleAdmin` declares no other read-only fields,
so the base list is the inherited `readonly_fields` value. -/
def RoleAdmin_get_readonly_fields (readonly_fields : List String) (obj : Option Role) :
    List String :=
  match obj with
  | some role =>
    if role.slug == "everyone" || role.slug == "registered" then
      readonly_fields ++ ["slug"]
    else readonly_fields
  | none => readonly_fields

/-- C6: for every actor, superuser included, deleting a role whose slug is
`everyone` or `registered` is refused, and the slug field of such a role is
read-only in every edit. -/
theorem RoleAdmin_protected_roles (actor : Actor) (role : Role)
    (readonly_fields : List String)
    (h : role.slug = "everyone" ∨ role.slug = "registered") :
    RoleAdmin_has_delete_permission actor (some role) = false ∧
      "slug" ∈ RoleAdmin_get_readonly_fields readonly_fields (some role) := by
  unfold RoleAdmin_has_delete_permission RoleAdmin_get_readonly_fields
  rcases h with h | h <;> simp [h]

/-- C6 witness: a superuser actor is refused deletion of the `everyone` role
and sees its slug field read-only. -/
theorem RoleAdmin_protected_roles_witness :
    RoleAdmin_has_delete_permission
        { is_superuser := true, operation_index := 0, has_manage_roles := true,
          base_change_permission := true, base_delete_permission := true }
        (some { id := 1, slug := "everyone", name := "Everyone", index := 9,
                is_staff := false, permissions := [], restrictions := [] }) = false ∧
      "slug" ∈ RoleAdmin_get_readonly_fields ["api_key"]
        (some { id := 1, slug := "everyone", name := "Everyone", index := 9,
                is_staff := false, permissions := [], restrictions := [] }) := by
  exact RoleAdmin_protected_roles
    { is_superuser := true, operation_index := 0, has_manage_roles := true,
      base_change_permission := true, base_delete_permission := true }
    { id := 1, slug := "everyone", name := "Everyone", index := 9,
      is_staff := false, permissions := [], restrictions := [] }
    ["api_key"] (Or.inl rfl)

/-- The cleaned permissions widget payload: an allow list and a deny list of
capability codenames. -/
structure PermsData where
  allow : List Cap
  deny : List Cap
deriving DecidableEq

/-- Modelled from the spec: the permissions widget (web/fields.py, not among
the provided sources) presents each capability with a single selectable state,
so its cleaned payload assigns every capability at most one of allow, deny or
neutral. -/
inductive PermState where
  | allowState : PermState
  | denyState : PermState
  | neutralState : PermState
deriving DecidableEq

/-- Modelled from the spec: the cleaned payload produced by the permissions
field from a per-capability single-state assignment over the capability
catalog; its allow and deny lists are built from disjoint states. -/
def cleanedPermsData (caps : List Cap) (st : Cap → PermState) : PermsData :=
  { allow := caps.filter (fun c => st c == PermState.allowState),
    deny := caps.filter (fun c => st c == PermState.denyState) }

/-- Embeds `RoleForm.save` (web/admin.py). The form excludes the two
many-to-many fields, so `super().save(commit=False)` yields the submitted
ordinary fields with the stored permission sets; when the cleaned `_perms_`
payload is present (truthy), both sets are cleared and rebuilt by filtering
the capability catalog of the role content type against the submitted allow
and deny lists (each only when nonempty, matching the code); when the payload
is absent or empty (falsy), the permission sets are untouched. -/
def RoleForm_save (registry : List Cap) (old submitted : Role)
    (perms_data : Option PermsData) : Role :=
  let inst := { submitted with permissions := old.permissions,
                               restrictions := old.restrictions }
  match perms_data with
  | none => inst
  | some d =>
    let cleared := { inst with permissions := [], restrictions := [] }
    let withAllow :=
      if d.allow.isEmpty then cleared
      else { cleared with permissions := registry.filter (fun c => d.allow.contains c) }
    if d.deny.isEmpty then withAllow
    else { withAllow with restrictions := registry.filter (fun c => d.deny.contains c) }

/-- Two capability lists with no common element. -/
def disjointCaps (a b : List Cap) : Prop := ∀ c, c ∈ a → c ∉ b

/-- C10: a role edit whose submitted permission payload is empty or absent
leaves the stored allow and deny sets of the role unchanged, while the other
submitted fields are still saved. -/
theorem RoleForm_save_frame_preserves_perms (registry : List Cap)
    (old submitted : Role) :
    (RoleForm_save registry old submitted none).permissions = old.permissions ∧
      (RoleForm_save registry old submitted none).restrictions = old.restrictions ∧
      (RoleForm_save registry old submitted none).slug = submitted.slug ∧
      (RoleForm_save registry old submitted none).name = submitted.name ∧
      (RoleForm_save registry old submitted none).index = submitted.index ∧
      (RoleForm_save registry old submitted none).is_staff = submitted.is_staff := by
  simp [RoleForm_save]

/-- Embeds the role choice field of `AdvancedUserChangeForm.__init__`
(web/admin.py): the queryset excludes the roles whose slug is in the list
`everyone`, `registered`. -/
def AdvancedUserChangeForm_roles_queryset (store : List Role) : List Role :=
  store.filter (fun r => !(["everyone", "registered"].contains r.slug))

/-- Embeds the `roles` field of `InviteForm` (web/forms.py): the queryset
excludes the roles whose slug is in the list `everyone`, `registered`. -/
def InviteForm_roles_queryset (store : List Role) : List Role :=
  store.filter (fun r => !(["everyone", "registered"].contains r.slug))

/-- C9: the two implicit roles are never offered as explicit assignments: any
role offered by the admin user-edit form choice set or by the invite form
choice set has a slug different from `everyone` and from `registered`. -/
theorem implicit_roles_not_assignable (store : List Role) (r1 r2 : Role)
    (h1 : r1 ∈ AdvancedUserChangeForm_roles_queryset store)
    (h2 : r2 ∈ InviteForm_roles_queryset store) :
    (r1.slug ≠ "everyone" ∧ r1.slug ≠ "registered") ∧
      (r2.slug ≠ "everyone" ∧ r2.slug ≠ "registered") := by
  unfold AdvancedUserChangeForm_roles_queryset at h1
  unfold InviteForm_roles_queryset at h2
  rw [List.mem_filter] at h1 h2
  constructor
  · have := h1.2
    simp only [List.contains_eq_any_beq, List.any_cons, List.any_nil,
      Bool.or_false, Bool.not_or, Bool.and_eq_true, Bool.not_eq_true',
      beq_eq_false_iff_ne, ne_eq] at this
    exact ⟨fun hc => this.1 hc, fun hc => this.2 hc⟩
  · have := h2.2
    simp only [List.contains_eq_any_beq, List.any_cons, List.any_nil,
      Bool.or_false, Bool.not_or, Bool.and_eq_true, Bool.not_eq_true',
      beq_eq_false_iff_ne, ne_eq] at this
    exact ⟨fun hc => this.1 hc, fun hc => this.2 hc⟩

/-- C9 witness: in a store holding the two implicit roles and one ordinary
role, the ordinary role is offered by both forms and its slug differs from the
two reserved slugs. -/
theorem implicit_roles_not_assignable_witness :
    ((({ id := 3, slug := "editor", name := "Editor", index := 1,
         is_staff := true, permissions := [], restrictions := [] } : Role).slug ≠ "everyone" ∧
      ({ id := 3, slug := "editor", name := "Editor", index := 1,
         is_staff := true, permissions := [], restrictions := [] } : Role).slug ≠ "registered") ∧
     (({ id := 3, slug := "editor", name := "Editor", index := 1,
         is_staff := true, permissions := [], restrictions := [] } : Role).slug ≠ "everyone" ∧
      ({ id := 3, slug := "editor", name := "Editor", index := 1,
         is_staff := true, permissions := [], restrictions := [] } : Role).slug ≠ "registered")) := by
  exact implicit_roles_not_assignable
    [{ id := 1, slug := "everyone", name := "Everyone", index := 8,
       is_staff := false, permissions := [], restrictions := [] },
     { id := 2, slug := "registered", name := "Registered", index := 9,
       is_staff := false, permissions := [], restrictions := [] },
     { id := 3, slug := "editor", name := "Editor", index := 1,
       is_staff := true, permissions := [], restrictions := [] }]
    { id := 3, slug := "editor", name := "Editor", index := 1,
      is_staff := true, permissions := [], restrictions := [] }
    { id := 3, slug := "editor", name := "Editor", index := 1,
      is_staff := true, permissions := [], restrictions := [] }
    (by decide) (by decide)

/-- The allow and deny lists of a cleaned permissions payload are disjoint,
since each capability carries a single state. -/
lemma cleanedPermsData_disjoint (caps : List Cap) (st : Cap → PermState) :
    disjointCaps (cleanedPermsData caps st).allow (cleanedPermsData caps st).deny := by
  intro c hca hcd
  unfold cleanedPermsData at hca hcd
  rw [List.mem_filter] at hca hcd
  have h1 := hca.2
  have h2 := hcd.2
  rw [beq_iff_eq] at h1 h2
  rw [h1] at h2
  cases h2

/-- C7: after any role edit, with a cleaned permission payload (absent, or
produced by the single-state permissions widget), the allow set and the deny
set of the saved role are disjoint, provided the stored role already satisfied
the invariant. -/
theorem RoleForm_save_disjoint_invariant (registry : List Cap)
    (old submitted : Role) (caps : List Cap) (st : Cap → PermState)
    (hold : disjointCaps old.permissions old.restrictions) :
    disjointCaps (RoleForm_save registry old submitted none).permissions
        (RoleForm_save registry old submitted none).restrictions ∧
      disjointCaps
        (RoleForm_save registry old submitted (some (cleanedPermsData caps st))).permissions
        (RoleForm_save registry old submitted (some (cleanedPermsData caps st))).restrictions := by
  constructor
  · intro c hcP hcR
    simp only [RoleForm_save] at hcP hcR
    exact hold c hcP hcR
  · intro c hcP hcR
    by_cases ha : (cleanedPermsData caps st).allow.isEmpty <;>
      by_cases hd : (cleanedPermsData caps st).deny.isEmpty <;>
      simp only [RoleForm_save, ha, hd, if_true, if_false, Bool.false_eq_true,
        List.mem_filter, List.not_mem_nil] at hcP hcR
    exact cleanedPermsData_disjoint caps st c
      (List.elem_iff.mp hcP.2) (List.elem_iff.mp hcR.2)

/-- C7 witness: the invariant evaluated at a concrete role whose stored sets
are disjoint and a concrete single-state submission. -/
theorem RoleForm_save_disjoint_invariant_witness :
    disjointCaps
        (RoleForm_save ["edit_articles", "delete_articles"]
          { id := 4, slug := "editor", name := "Editor", index := 1,
            is_staff := true, permissions := ["edit_articles"], restrictions := [] }
          { id := 4, slug := "editor", name := "Editor renamed", index := 1,
            is_staff := true, permissions := [], restrictions := [] }
          none).permissions
        (RoleForm_save ["edit_articles", "delete_articles"]
          { id := 4, slug := "editor", name := "Editor", index := 1,
            is_staff := true, permissions := ["edit_articles"], restrictions := [] }
          { id := 4, slug := "editor", name := "Editor renamed", index := 1,
            is_staff := true, permissions := [], restrictions := [] }
          none).restrictions ∧
      disjointCaps
        (RoleForm_save ["edit_articles", "delete_articles"]
          { id := 4, slug := "editor", name := "Editor", index := 1,
            is_staff := true, permissions := ["edit_articles"], restrictions := [] }
          { id := 4, slug := "editor", name := "Editor renamed", index := 1,
            is_staff := true, permissions := [], restrictions := [] }
          (some (cleanedPermsData ["edit_articles", "delete_articles"]
            (fun c => if c == "edit_articles" then PermState.allowState
                      else PermState.denyState)))).permissions
        (RoleForm_save ["edit_articles", "delete_articles"]
          { id := 4, slug := "editor", name := "Editor", index := 1,
            is_staff := true, permissions := ["edit_articles"], restrictions := [] }
          { id := 4, slug := "editor", name := "Editor renamed", index := 1,
            is_staff := true, permissions := [], restrictions := [] }
          (some (cleanedPermsData ["edit_articles", "delete_articles"]
            (fun c => if c == "edit_articles" then PermState.allowState
                      else PermState.denyState)))).restrictions := by
  exact RoleForm_save_disjoint_invariant
    ["edit_articles", "delete_articles"]
    { id := 4, slug := "editor", name := "Editor", index := 1,
      is_staff := true, permissions := ["edit_articles"], restrictions := [] }
    { id := 4, slug := "editor", name := "Editor renamed", index := 1,
      is_staff := true, permissions := [], restrictions := [] }
    ["edit_articles", "delete_articles"]
    (fun c => if c == "edit_articles" then PermState.allowState
              else PermState.denyState)
    (by intro c hc hc2; simp at hc2)

/-- A freshly created override row: `RolePermissionsOverride.objects.create`
starts with empty permission and restriction sets. -/
def emptyOverride (rid : RoleId) : RolePermissionsOverride :=
  { role_id := rid, permissions := [], restrictions := [] }

/-- One override row built by the `_perms_override_` loop of
`CategoryForm.save` (web/admin.py): created empty, then the allow set and the
deny set are each installed only when the submitted list is nonempty, by
filtering the capability catalog of the role content type. -/
def mkOverride (registry : List Cap) (rid : RoleId) (d : PermsData) :
    RolePermissionsOverride :=
  let ov := emptyOverride rid
  let withAllow :=
    if d.allow.isEmpty then ov
    else { ov with permissions := registry.filter (fun c => d.allow.contains c) }
  if d.deny.isEmpty then withAllow
  else { withAllow with restrictions := registry.filter (fun c => d.deny.contains c) }

/-- Embeds `CategoryForm.save` (web/admin.py), tracking the override rows of
the saved category. When the cleaned `_perms_override_` payload is nonempty
(truthy), all existing rows of the category are deleted and one fresh row per
payload entry is created; when it is empty or absent, the rows are untouched.
Then one empty row is created per role of `_add_override_roles_`, and the rows
of the roles of `_remove_override_roles_` are deleted, each step only when the
respective selection is nonempty, matching the code. -/
def CategoryForm_save (registry : List Cap) (ovs : List RolePermissionsOverride)
    (roles_data : List (RoleId × PermsData)) (add_roles remove_roles : List RoleId) :
    List RolePermissionsOverride :=
  let s1 :=
    if roles_data.isEmpty then ovs
    else roles_data.map (fun q => mkOverride registry q.1 q.2)
  let s2 := if add_roles.isEmpty then s1 else s1 ++ add_roles.map emptyOverride
  if remove_roles.isEmpty then s2
  else s2.filter (fun o => !remove_roles.contains o.role_id)

/-- C3 counterexample: a category holding one override, saved with an empty
submission map and no add/remove selections, keeps its override; the claim
says all prior overrides are removed. -/
theorem CategoryForm_save_empty_keeps_existing :
    CategoryForm_save ["edit_articles"] [emptyOverride 5] [] [] [] =
        [emptyOverride 5] ∧
      CategoryForm_save ["edit_articles"] [emptyOverride 5] [] [] [] ≠ [] := by
  decide

/-- C3 (amended): the category-form save with an empty or absent submission
map leaves the existing override rows of the category unchanged; only a
NONEMPTY submission map removes all prior rows and rebuilds one fresh row per
entry (here with no add/remove selections). -/
theorem CategoryForm_save_replace_semantics (registry : List Cap)
    (ovs : List RolePermissionsOverride) (rd : List (RoleId × PermsData))
    (hrd : rd ≠ []) :
    CategoryForm_save registry ovs [] [] [] = ovs ∧
      CategoryForm_save registry ovs rd [] [] =
        rd.map (fun q => mkOverride registry q.1 q.2) := by
  have hne : rd.isEmpty = false := by
    cases rd with
    | nil => exact absurd rfl hrd
    | cons a tl => rfl
  constructor
  · simp [CategoryForm_save]
  · simp [CategoryForm_save, hne]

/-- C3 witness: the amended replace semantics evaluated at a concrete category
with one stale override and a concrete nonempty submission. -/
theorem CategoryForm_save_replace_semantics_witness :
    (CategoryForm_save ["edit_articles"] [emptyOverride 5] [] [] [] =
        [emptyOverride 5] ∧
      CategoryForm_save ["edit_articles"] [emptyOverride 5]
          [(4, { allow := ["edit_articles"], deny := [] })] [] [] =
        [mkOverride ["edit_articles"] 4 { allow := ["edit_articles"], deny := [] }]) := by
  have h := CategoryForm_save_replace_semantics ["edit_articles"] [emptyOverride 5]
    [(4, { allow := ["edit_articles"], deny := [] })] (by decide)
  exact ⟨h.1, h.2⟩

/-- Building an override row keeps the role reference of the payload entry. -/
lemma mkOverride_role_id (registry : List Cap) (rid : RoleId) (d : PermsData) :
    (mkOverride registry rid d).role_id = rid := by
  unfold mkOverride emptyOverride
  by_cases ha : d.allow.isEmpty <;> by_cases hd : d.deny.isEmpty <;> simp [ha, hd]

/-- The role references of the rebuilt rows are the submission map keys. -/
lemma map_role_id_mkOverride (registry : List Cap) (rd : List (RoleId × PermsData)) :
    (rd.map (fun q => mkOverride registry q.1 q.2)).map RolePermissionsOverride.role_id =
      rd.map Prod.fst := by
  rw [List.map_map]
  apply List.map_congr_left
  intro q _
  exact mkOverride_role_id registry q.1 q.2

/-- The role references of freshly added empty rows are the added roles. -/
lemma map_role_id_emptyOverride (l : List RoleId) :
    (l.map emptyOverride).map RolePermissionsOverride.role_id = l := by
  rw [List.map_map]
  have hcomp : (RolePermissionsOverride.role_id ∘ emptyOverride) = id := by
    funext x
    rfl
  rw [hcomp, List.map_id]

/-- Rows built from a submission map not containing a role reference never
match that reference. -/
lemma filter_mkOverride_not_mem (registry : List Cap) (x : RoleId)
    (rd : List (RoleId × PermsData)) (hx : x ∉ rd.map Prod.fst) :
    (rd.map (fun q => mkOverride registry q.1 q.2)).filter
        (fun o => o.role_id == x) = [] := by
  rw [List.filter_eq_nil_iff]
  intro o ho
  rw [List.mem_map] at ho
  obtain ⟨q, hq, rfl⟩ := ho
  rw [mkOverride_role_id]
  intro hbeq
  apply hx
  rw [List.mem_map]
  exact ⟨q, hq, beq_iff_eq.mp hbeq⟩

/-- Among rows rebuilt from a submission map with distinct keys, exactly one
row matches each key of the map. -/
lemma filter_mkOverride_single (registry : List Cap) :
    ∀ (rd : List (RoleId × PermsData)), (rd.map Prod.fst).Nodup →
      ∀ q ∈ rd,
        (rd.map (fun p => mkOverride registry p.1 p.2)).filter
            (fun o => o.role_id == q.1) = [mkOverride registry q.1 q.2] := by
  intro rd
  induction rd with
  | nil =>
    intro _ q hq
    cases hq
  | cons p tl ih =>
    intro hnd q hq
    rw [List.map_cons] at hnd
    rw [List.nodup_cons] at hnd
    rw [List.map_cons, List.filter_cons]
    rcases List.mem_cons.mp hq with hq | hq
    · subst hq
      rw [mkOverride_role_id]
      simp only [beq_self_eq_true, if_true]
      rw [filter_mkOverride_not_mem registry q.1 tl hnd.1]
    · have hne : p.1 ≠ q.1 := by
        intro he
        apply hnd.1
        rw [he, List.mem_map]
        exact ⟨q, hq, rfl⟩
      rw [mkOverride_role_id]
      have hb : (p.1 == q.1) = false := beq_eq_false_iff_ne.mpr hne
      rw [hb]
      simp only [Bool.false_eq_true, if_false]
      exact ih hnd.2 q hq

/-- C8: after any category-form save, the override rows of the category
reference pairwise distinct roles (at most one row per (role, category) pair),
given that the stored rows were distinct, the submission map has distinct keys
all referring to roles already overridden, and the added roles are distinct
and not yet overridden; moreover, with a nonempty submission map, the single
row referencing a submitted role is the freshly built one, replacing any prior
row. -/
theorem CategoryForm_save_unique_override_per_role (registry : List Cap)
    (ovs : List RolePermissionsOverride) (rd : List (RoleId × PermsData))
    (add_roles remove_roles : List RoleId)
    (h1 : (ovs.map RolePermissionsOverride.role_id).Nodup)
    (h2 : (rd.map Prod.fst).Nodup)
    (h3 : ∀ r ∈ rd.map Prod.fst, r ∈ ovs.map RolePermissionsOverride.role_id)
    (h4 : add_roles.Nodup)
    (h5 : ∀ r ∈ add_roles, r ∉ ovs.map RolePermissionsOverride.role_id) :
    ((CategoryForm_save registry ovs rd add_roles remove_roles).map
        RolePermissionsOverride.role_id).Nodup ∧
      (∀ q ∈ rd,
        (CategoryForm_save registry ovs rd [] []).filter
            (fun o => o.role_id == q.1) = [mkOverride registry q.1 q.2]) := by
  constructor
  · have hs1 :
        ((if rd.isEmpty then ovs
          else rd.map (fun q => mkOverride registry q.1 q.2)).map
            RolePermissionsOverride.role_id).Nodup ∧
        ∀ r ∈ (if rd.isEmpty then ovs
               else rd.map (fun q => mkOverride registry q.1 q.2)).map
                 RolePermissionsOverride.role_id,
          r ∈ ovs.map RolePermissionsOverride.role_id := by
      by_cases hrd : rd.isEmpty
      · rw [if_pos hrd]
        exact ⟨h1, fun r hr => hr⟩
      · rw [if_neg hrd, map_role_id_mkOverride]
        exact ⟨h2, h3⟩
    have hs2 :
        ((if add_roles.isEmpty then
            (if rd.isEmpty then ovs
             else rd.map (fun q => mkOverride registry q.1 q.2))
          else
            (if rd.isEmpty then ovs
             else rd.map (fun q => mkOverride registry q.1 q.2)) ++
              add_roles.map emptyOverride).map
            RolePermissionsOverride.role_id).Nodup := by
      by_cases hadd : add_roles.isEmpty
      · rw [if_pos hadd]
        exact hs1.1
      · rw [if_neg hadd, List.map_append, List.nodup_append]
        refine ⟨hs1.1, ?_, ?_⟩
        · rw [map_role_id_emptyOverride]
          exact h4
        · intro a ha1 ha2
          rw [map_role_id_emptyOverride] at ha2
          exact h5 a ha2 (hs1.2 a ha1)
    unfold CategoryForm_save
    by_cases hrem : remove_roles.isEmpty
    · rw [if_pos hrem]
      exact hs2
    · rw [if_neg hrem]
      refine List.Nodup.sublist ?_ hs2
      exact (List.filter_sublist _).map _
  · intro q hq
    have hne : rd.isEmpty = false := by
      cases rd with
      | nil => cases hq
      | cons a tl => rfl
    unfold CategoryForm_save
    simp only [hne, List.isEmpty_nil, if_true, if_false, Bool.false_eq_true]
    exact filter_mkOverride_single registry rd h2 q hq

/-- C8 witness: uniqueness and replacement evaluated at a concrete category
with one stale override for role 4, a submission for role 4, one added role 9
and one removed role. -/
theorem CategoryForm_save_unique_override_per_role_witness :
    ((CategoryForm_save ["edit_articles"]
        [{ role_id := 4, permissions := ["edit_articles"], restrictions := [] }]
        [(4, { allow := [], deny := ["edit_articles"] })] [9] []).map
        RolePermissionsOverride.role_id).Nodup ∧
      (∀ q ∈ [((4 : RoleId), ({ allow := [], deny := ["edit_articles"] } : PermsData))],
        (CategoryForm_save ["edit_articles"]
            [{ role_id := 4, permissions := ["edit_articles"], restrictions := [] }]
            [(4, { allow := [], deny := ["edit_articles"] })] [] []).filter
            (fun o => o.role_id == q.1) =
          [mkOverride ["edit_articles"] q.1 q.2]) := by
  exact CategoryForm_save_unique_override_per_role ["edit_articles"]
    [{ role_id := 4, permissions := ["edit_articles"], restrictions := [] }]
    [(4, { allow := [], deny := ["edit_articles"] })] [9] []
    (by decide) (by decide) (by decide) (by decide) (by decide)

end RBAC
